import Mathlib

/-!
Verification of the `cursedtypist` game model.

Shallow embedding of `src/cursedtypist/game.py` (the asyncio version with
`GameModel.result` and `GameController.check_finish_state`).

Modelling conventions:
- the text buffer is a `List Char` (Python `str`);
- `player` is a `Nat` (starts at 0, only incremented), `tracer` is an `Int`
  (it is initialized to `-PLAYER_INIT_OFFSET`, hence may be negative);
- `result` is `Option Bool` (`None`/`False`/`True` in Python);
- calls into the `GameView` render sink are recorded as a list of
  `ViewEvent`s returned next to the new state, in call order;
- Python's `IndexError` on `self.text[self.player]` is modelled by returning
  `none` from `player_move`;
- `asyncio.Future` is modelled as an `Option Bool` cell whose `set_result`
  raises (`Except.error`) when the future is already resolved, exactly as
  `asyncio.InvalidStateError`;
- the constant `PLAYER_INIT_OFFSET` is imported by `game.py` but its value
  is not part of the sources at hand (`params.py` predates it), so the
  model is parametrized by an `offset : Nat`; the spec states the head-start
  offset is a strictly positive constant, and theorems that need this take
  `0 < offset` as a hypothesis.
- the `border` field is declared on the class but never assigned or read in
  this version of `game.py`, so it is omitted.
-/

/-- Render-sink notifications, one constructor per `GameView` method that the
model calls (`init_screen` is fired by the constructor and is not part of any
transition's event list). -/
inductive ViewEvent : Type where
  | initScreen : ViewEvent
  | gameScreen (text : List Char) : ViewEvent
  | deathScreen : ViewEvent
  | winScreen : ViewEvent
  | printMessage (msg : String) : ViewEvent
  | dropFloor : ViewEvent
  | movePlayer : ViewEvent
  | refresh : ViewEvent
deriving DecidableEq, Repr

/-- The mutable state of `GameModel`: hazard position `tracer`, cursor
`player`, the immutable `text`, and the tri-state `result`. -/
structure GameModel : Type where
  tracer : Int
  player : Nat
  text : List Char
  result : Option Bool
deriving DecidableEq, Repr

/-- Embeds `GameModel.__init__`: `tracer = -PLAYER_INIT_OFFSET`, `player = 0`,
`result = None`.  The offset is a parameter, see the module docstring. -/
def initModel (offset : Nat) (text : List Char) : GameModel :=
  { tracer := -(offset : Int), player := 0, text := text, result := none }

/-- Embeds `GameModel.start`: pushes the text to the view, touching no state. -/
def start (s : GameModel) : GameModel × List ViewEvent :=
  (s, [ViewEvent.gameScreen s.text])

/-- Embeds `GameModel.player_move`.  Returns `none` when `self.text[self.player]`
would raise `IndexError`; otherwise the updated state and the render-sink
calls in program order. -/
def player_move (s : GameModel) (key : Char) : Option (GameModel × List ViewEvent) :=
  match s.text[s.player]? with
  | none => none
  | some c =>
    if key = c then
      if s.player + 1 = s.text.length then
        some ({ s with player := s.player + 1, result := some true },
              [ViewEvent.printMessage "", ViewEvent.movePlayer,
               ViewEvent.winScreen, ViewEvent.refresh])
      else
        some ({ s with player := s.player + 1 },
              [ViewEvent.printMessage "", ViewEvent.movePlayer, ViewEvent.refresh])
    else
      if s.tracer + 1 = (s.player : Int) then
        some ({ s with tracer := s.tracer + 1, result := some false },
              [ViewEvent.printMessage "WRONG KEY", ViewEvent.dropFloor,
               ViewEvent.deathScreen, ViewEvent.refresh])
      else
        some ({ s with tracer := s.tracer + 1 },
              [ViewEvent.printMessage "WRONG KEY", ViewEvent.dropFloor,
               ViewEvent.refresh])

/-- Embeds `GameModel.timer_fired`: unconditional `tracer += 1`, `drop_floor`,
loss check, `refresh`. -/
def timer_fired (s : GameModel) : GameModel × List ViewEvent :=
  if s.tracer + 1 = (s.player : Int) then
    ({ s with tracer := s.tracer + 1, result := some false },
     [ViewEvent.dropFloor, ViewEvent.deathScreen, ViewEvent.refresh])
  else
    ({ s with tracer := s.tracer + 1 },
     [ViewEvent.dropFloor, ViewEvent.refresh])

/-- Embeds `GameModel.get_result`. -/
def get_result (s : GameModel) : Option Bool :=
  s.result

/-- States reachable from `s0` by `player_move` / `timer_fired` calls that
are made only while `result` is still unset. -/
inductive Reachable (s0 : GameModel) : GameModel → Prop where
  | refl : Reachable s0 s0
  | move {s s' : GameModel} {k : Char} {evs : List ViewEvent} :
      Reachable s0 s → s.result = none → player_move s k = some (s', evs) →
      Reachable s0 s'
  | timer {s s' : GameModel} {evs : List ViewEvent} :
      Reachable s0 s → s.result = none → timer_fired s = (s', evs) →
      Reachable s0 s'

/-- The transition `timer_fired` iterated `n` times (dropping the render events). -/
def timerRun : Nat → GameModel → GameModel
  | 0, s => s
  | n + 1, s => timerRun n (timer_fired s).1

/-- A sequence of `player_move` calls, all performed on the model; fails
(`none`) as soon as one indexing fails, and concatenates the render events. -/
def feedMoves : GameModel → List Char → Option (GameModel × List ViewEvent)
  | s, [] => some (s, [])
  | s, k :: ks =>
    match player_move s k with
    | none => none
    | some (s', evs) =>
      match feedMoves s' ks with
      | none => none
      | some (s'', evs') => some (s'', evs ++ evs')

/-- Embeds `asyncio.Future.set_result` on a future modelled as an `Option Bool`
cell: raises `InvalidStateError` when the future is already resolved. -/
def future_set_result (fut : Option Bool) (v : Bool) : Except String (Option Bool) :=
  match fut with
  | some _ => Except.error "InvalidStateError"
  | none => Except.ok (some v)

/-- Embeds the `GameController` state: the driven model and the `state : asyncio.Future[bool]`
completion signal. -/
structure GameController : Type where
  model : GameModel
  state : Option Bool
deriving DecidableEq, Repr

/-- Embeds `GameController.check_finish_state`: reads `model.get_result()`; when it
is set, calls `self.state.set_result(result)` (which may raise) and returns
`True`; otherwise returns `False`. -/
def check_finish_state (c : GameController) : Except String (GameController × Bool) :=
  match get_result c.model with
  | some r =>
    match future_set_result c.state r with
    | Except.error e => Except.error e
    | Except.ok fut => Except.ok ({ c with state := fut }, true)
  | none => Except.ok (c, false)

/-- Fixture: the terminal state reached by winning on the one-character text
"A" with head-start offset 1 (see `C2_counterexample`). -/
def wonA : GameModel :=
  { tracer := -1, player := 1, text := ['A'], result := some true }

/-- Fixture: a controller whose model has just finished with a win and whose
future is still unresolved. -/
def wonAController : GameController :=
  { model := wonA, state := none }

/-- Field-level description of a successful `player_move` call: the index was
in bounds, the text is untouched, and either the match branch ran (player
advanced, win check) or the mismatch branch ran (tracer advanced, loss
check). -/
lemma player_move_cases {s : GameModel} {k : Char} {s' : GameModel}
    {evs : List ViewEvent} (h : player_move s k = some (s', evs)) :
    s.player < s.text.length ∧ s'.text = s.text ∧
    ((s'.player = s.player + 1 ∧ s'.tracer = s.tracer ∧
        s'.result = (if s.player + 1 = s.text.length then some true else s.result)) ∨
      (s'.player = s.player ∧ s'.tracer = s.tracer + 1 ∧
        s'.result = (if s.tracer + 1 = (s.player : Int) then some false else s.result))) := by
  unfold player_move at h
  split at h
  · simp at h
  · rename_i c hg
    have hlt : s.player < s.text.length := by
      by_contra hc
      push_neg at hc
      rw [List.getElem?_eq_none hc] at hg
      cases hg
    refine ⟨hlt, ?_⟩
    split at h
    · split at h <;> rename_i hwin <;>
        simp only [Option.some.injEq, Prod.mk.injEq] at h <;>
        obtain ⟨hs, -⟩ := h <;> subst hs <;>
        exact ⟨rfl, Or.inl ⟨rfl, rfl, by simp [hwin]⟩⟩
    · split at h <;> rename_i hlose <;>
        simp only [Option.some.injEq, Prod.mk.injEq] at h <;>
        obtain ⟨hs, -⟩ := h <;> subst hs <;>
        exact ⟨rfl, Or.inr ⟨rfl, rfl, by simp [hlose]⟩⟩

/-- Field-level description of a `timer_fired` call. -/
lemma timer_fired_cases (s : GameModel) :
    (timer_fired s).1.text = s.text ∧ (timer_fired s).1.player = s.player ∧
    (timer_fired s).1.tracer = s.tracer + 1 ∧
    (timer_fired s).1.result
      = (if s.tracer + 1 = (s.player : Int) then some false else s.result) := by
  unfold timer_fired
  split_ifs with hl <;> simp [hl]

/-- Along any run whose transitions happen only while `result` is unset, the
text never changes, `player` stays within `[0, len(text)]`, and while the
game is undecided `player` is a valid index into a non-empty text. -/
lemma reach_player_inv (offset : Nat) (text : List Char) :
    ∀ s, Reachable (initModel offset text) s →
      s.text = text ∧ s.player ≤ s.text.length ∧
      (s.result = none → s.player < s.text.length ∨ s.text = []) := by
  intro s hr
  induction hr with
  | refl =>
    refine ⟨rfl, by simp [initModel], ?_⟩
    intro _
    cases text with
    | nil => exact Or.inr rfl
    | cons a l => exact Or.inl (by simp [initModel])
  | @move s1 s2 k evs hr hres hmv ih =>
    obtain ⟨hlt, htext, hbr⟩ := player_move_cases hmv
    obtain ⟨ihtext, ihle, -⟩ := ih
    refine ⟨htext.trans ihtext, ?_, ?_⟩
    · rcases hbr with ⟨hp, -, -⟩ | ⟨hp, -, -⟩ <;> rw [hp, htext] <;> omega
    · intro hres'
      rcases hbr with ⟨hp, -, hrr⟩ | ⟨hp, -, hrr⟩ <;> rw [hrr] at hres' <;>
        rw [hp, htext]
      · by_cases hwin : s1.player + 1 = s1.text.length
        · rw [if_pos hwin] at hres'; cases hres'
        · left; omega
      · left; omega
  | @timer s1 s2 evs hr hres ht ih =>
    obtain ⟨htext, hp, htr, hrr⟩ := timer_fired_cases s1
    rw [ht] at htext hp htr hrr
    obtain ⟨ihtext, ihle, ihlt⟩ := ih
    refine ⟨htext.trans ihtext, by rw [hp, htext]; exact ihle, ?_⟩
    intro hres'
    rw [hrr] at hres'
    rw [hp, htext]
    by_cases hl : s1.tracer + 1 = (s1.player : Int)
    · rw [if_pos hl] at hres'; cases hres'
    · rw [if_neg hl] at hres'; exact ihlt hres'

/-- Along any run whose transitions happen only while `result` is unset and
whose head-start offset is positive, the tracer never passes the player, and
strictly trails it while the game is undecided. -/
lemma reach_tracer_inv (offset : Nat) (text : List Char) (hoff : 0 < offset) :
    ∀ s, Reachable (initModel offset text) s →
      s.tracer ≤ (s.player : Int) ∧
      (s.result = none → s.tracer < (s.player : Int)) := by
  intro s hr
  induction hr with
  | refl =>
    constructor
    · simp only [initModel]; omega
    · intro _; simp only [initModel]; omega
  | @move s1 s2 k evs hr hres hmv ih =>
    obtain ⟨hlt, htext, hbr⟩ := player_move_cases hmv
    have ihstrict := ih.2 hres
    rcases hbr with ⟨hp, htr, hrr⟩ | ⟨hp, htr, hrr⟩ <;> rw [hp, htr, hrr]
    · constructor
      · omega
      · intro _; omega
    · constructor
      · omega
      · intro hres'
        by_cases he : s1.tracer + 1 = (s1.player : Int)
        · rw [if_pos he] at hres'; cases hres'
        · omega
  | @timer s1 s2 evs hr hres ht ih =>
    obtain ⟨-, hp, htr, hrr⟩ := timer_fired_cases s1
    rw [ht] at hp htr hrr
    have ihstrict := ih.2 hres
    rw [hp, htr, hrr]
    constructor
    · omega
    · intro hres'
      by_cases he : s1.tracer + 1 = (s1.player : Int)
      · rw [if_pos he] at hres'; cases hres'
      · omega

/-- C1: for every state reachable from the initial model state by any
interleaving of `player_move` and `timer_fired` calls made while `result` is
unset, the invariant `tracer ≤ player ≤ len(text)` holds.  The head-start
offset is taken strictly positive, as the spec requires of
`PLAYER_INIT_OFFSET`. -/
theorem C1_reachable_tracer_player_bounds (offset : Nat) (text : List Char)
    (s : GameModel) (hoff : 0 < offset)
    (hr : Reachable (initModel offset text) s) :
    s.tracer ≤ (s.player : Int) ∧ s.player ≤ text.length := by
  obtain ⟨htext, hle, -⟩ := reach_player_inv offset text s hr
  refine ⟨(reach_tracer_inv offset text hoff s hr).1, ?_⟩
  rw [htext] at hle
  exact hle

/-- Witness for C1 at offset 4, text "AB", the initial state. -/
theorem C1_witness :
    (initModel 4 ['A', 'B']).tracer ≤ ((initModel 4 ['A', 'B']).player : Int) ∧
      (initModel 4 ['A', 'B']).player ≤ (['A', 'B'] : List Char).length :=
  C1_reachable_tracer_player_bounds 4 ['A', 'B'] (initModel 4 ['A', 'B'])
    (by decide) Reachable.refl

/-- C10: in every state reachable by `player_move`/`timer_fired` calls made
only while `result` is unset, a non-empty text keeps `player` strictly below
`len(text)` whenever `result` is unset, so `text[player]` is in bounds; with
an empty text the very first `player_move` hits the out-of-bounds index
(modelled as `none`) before any win check can run. -/
theorem C10_player_index_in_bounds (offset : Nat) (text : List Char)
    (s : GameModel) (hr : Reachable (initModel offset text) s) :
    (text ≠ [] → s.result = none → s.player < s.text.length) ∧
    (∀ k, player_move (initModel offset []) k = none) := by
  obtain ⟨htext, -, hlt⟩ := reach_player_inv offset text s hr
  refine ⟨?_, fun k => rfl⟩
  intro hne hres
  rcases hlt hres with h | h
  · exact h
  · rw [htext] at h
    exact absurd h hne

/-- Witness for C10: the empty-text part at offset 4 and key 'x'. -/
theorem C10_witness : player_move (initModel 4 []) 'x' = none :=
  (C10_player_index_in_bounds 4 [] (initModel 4 []) Reachable.refl).2 'x'

/-- C4: from any state with `result` unset, a `player_move` whose key matches
`text[player]` and whose increment brings `player` to `len(text)` sets
`result` to `Won` (`some true`), never to `Lost`, whatever `tracer` is. -/
theorem C4_final_correct_key_wins (s : GameModel) (k : Char)
    (_hres : s.result = none) (hkey : s.text[s.player]? = some k)
    (hfin : s.player + 1 = s.text.length) :
    (player_move s k).map (fun p => p.1.result) = some (some true) := by
  unfold player_move
  rw [hkey]
  simp [hfin]

/-- Witness for C4 at the tie state `tracer = player = 1` on text "AB" with
the final correct key 'B': win takes precedence, the result is `Won`. -/
theorem C4_witness :
    (player_move { tracer := 1, player := 1, text := ['A', 'B'], result := none } 'B').map
      (fun p => p.1.result) = some (some true) :=
  C4_final_correct_key_wins
    { tracer := 1, player := 1, text := ['A', 'B'], result := none } 'B'
    rfl (by decide) (by decide)

/-- C5: a `player_move` call with `result` unset and `player` in bounds: on a
match, `player` advances by one, `tracer` is unchanged, the "wrong key"
message is cleared, a player-advance notification fires, and `result`
becomes `Won` iff the new `player` equals `len(text)`; on a mismatch,
`tracer` advances by one, `player` is unchanged, a "WRONG KEY" message and a
hazard-advance notification fire, and `result` becomes `Lost` iff the new
`tracer` equals `player`; both branches end with a refresh notification. -/
theorem C5_player_move_step (s : GameModel) (k : Char)
    (hres : s.result = none) (hp : s.player < s.text.length) :
    ∃ s' evs, player_move s k = some (s', evs) ∧
      evs.getLast? = some ViewEvent.refresh ∧
      (s.text[s.player]? = some k →
        s'.player = s.player + 1 ∧ s'.tracer = s.tracer ∧
        ViewEvent.printMessage "" ∈ evs ∧ ViewEvent.movePlayer ∈ evs ∧
        (s'.result = some true ↔ s'.player = s.text.length) ∧
        (s'.result = none ↔ s'.player ≠ s.text.length)) ∧
      (s.text[s.player]? ≠ some k →
        s'.player = s.player ∧ s'.tracer = s.tracer + 1 ∧
        ViewEvent.printMessage "WRONG KEY" ∈ evs ∧ ViewEvent.dropFloor ∈ evs ∧
        (s'.result = some false ↔ s'.tracer = (s'.player : Int)) ∧
        (s'.result = none ↔ s'.tracer ≠ (s'.player : Int))) := by
  by_cases hk : s.text[s.player]? = some k
  · by_cases hwin : s.player + 1 = s.text.length
    · refine ⟨{ s with player := s.player + 1, result := some true },
        [ViewEvent.printMessage "", ViewEvent.movePlayer,
          ViewEvent.winScreen, ViewEvent.refresh], ?_, rfl, ?_, ?_⟩
      · unfold player_move
        rw [hk]
        simp [hwin]
      · intro _
        exact ⟨rfl, rfl, by simp, by simp, by simp [hwin], by simp [hwin]⟩
      · intro hk'
        exact absurd hk hk'
    · refine ⟨{ s with player := s.player + 1 },
        [ViewEvent.printMessage "", ViewEvent.movePlayer, ViewEvent.refresh],
        ?_, rfl, ?_, ?_⟩
      · unfold player_move
        rw [hk]
        simp [hwin]
      · intro _
        exact ⟨rfl, rfl, by simp, by simp, by simp [hres, hwin], by simp [hres, hwin]⟩
      · intro hk'
        exact absurd hk hk'
  · have hne : k ≠ s.text[s.player] := by
      intro he
      exact hk (by rw [List.getElem?_eq_getElem hp, he])
    by_cases hlose : s.tracer + 1 = (s.player : Int)
    · refine ⟨{ s with tracer := s.tracer + 1, result := some false },
        [ViewEvent.printMessage "WRONG KEY", ViewEvent.dropFloor,
          ViewEvent.deathScreen, ViewEvent.refresh], ?_, rfl, ?_, ?_⟩
      · unfold player_move
        rw [List.getElem?_eq_getElem hp]
        simp [hne, hlose]
      · intro hk'
        exact absurd hk' hk
      · intro _
        exact ⟨rfl, rfl, by simp, by simp, by simp [hlose], by simp [hlose]⟩
    · refine ⟨{ s with tracer := s.tracer + 1 },
        [ViewEvent.printMessage "WRONG KEY", ViewEvent.dropFloor, ViewEvent.refresh],
        ?_, rfl, ?_, ?_⟩
      · unfold player_move
        rw [List.getElem?_eq_getElem hp]
        simp [hne, hlose]
      · intro hk'
        exact absurd hk' hk
      · intro _
        exact ⟨rfl, rfl, by simp, by simp, by simp [hres, hlose], by simp [hres, hlose]⟩

/-- Witness for C5 at the initial state with offset 4, text "AB", key 'A'. -/
theorem C5_witness :
    ∃ s' evs, player_move (initModel 4 ['A', 'B']) 'A' = some (s', evs) ∧
      evs.getLast? = some ViewEvent.refresh ∧
      ((['A', 'B'] : List Char)[0]? = some 'A' →
        s'.player = (initModel 4 ['A', 'B']).player + 1 ∧
        s'.tracer = (initModel 4 ['A', 'B']).tracer ∧
        ViewEvent.printMessage "" ∈ evs ∧ ViewEvent.movePlayer ∈ evs ∧
        (s'.result = some true ↔ s'.player = (initModel 4 ['A', 'B']).text.length) ∧
        (s'.result = none ↔ s'.player ≠ (initModel 4 ['A', 'B']).text.length)) ∧
      ((['A', 'B'] : List Char)[0]? ≠ some 'A' →
        s'.player = (initModel 4 ['A', 'B']).player ∧
        s'.tracer = (initModel 4 ['A', 'B']).tracer + 1 ∧
        ViewEvent.printMessage "WRONG KEY" ∈ evs ∧ ViewEvent.dropFloor ∈ evs ∧
        (s'.result = some false ↔ s'.tracer = (s'.player : Int)) ∧
        (s'.result = none ↔ s'.tracer ≠ (s'.player : Int))) :=
  C5_player_move_step (initModel 4 ['A', 'B']) 'A' rfl (by decide)

/-- Iterating the timer commutes: one more tick applies `timer_fired` to the
state that `n` ticks produced. -/
lemma timerRun_succ (n : Nat) (s : GameModel) :
    timerRun (n + 1) s = (timer_fired (timerRun n s)).1 := by
  induction n generalizing s with
  | zero => rfl
  | succ n ih =>
    show timerRun (n + 1) (timer_fired s).1 = _
    rw [ih]
    rfl

/-- Closed form for the first `offset` timer ticks from the initial state:
for `k < offset` the state is `tracer = -offset + k`, `player = 0`,
`result` unset. -/
lemma timerRun_closed (offset : Nat) (text : List Char) :
    ∀ k, k < offset →
      timerRun k (initModel offset text)
        = { tracer := -(offset : Int) + k, player := 0, text := text, result := none } := by
  intro k
  induction k with
  | zero =>
    intro _
    simp [timerRun, initModel]
  | succ k ih =>
    intro hk
    rw [timerRun_succ, ih (by omega)]
    unfold timer_fired
    rw [if_neg (by push_cast; omega)]
    simp
    omega

/-- C6: a `timer_fired` call with `result` unset advances `tracer` by one,
fires a hazard-advance notification, sets `result` to `Lost` iff the new
`tracer` equals `player`, and ends with a refresh notification; and from the
initial state (`tracer = -PLAYER_INIT_OFFSET`, `player = 0`) exactly
`PLAYER_INIT_OFFSET` consecutive `timer_fired` calls set `result` to `Lost`
(the offset is strictly positive, as the spec requires). -/
theorem C6_timer_fired_step_and_timer_only_loss (s : GameModel)
    (offset : Nat) (text : List Char) (hres : s.result = none)
    (hoff : 0 < offset) :
    ((timer_fired s).1.tracer = s.tracer + 1 ∧
      (timer_fired s).1.player = s.player ∧
      ViewEvent.dropFloor ∈ (timer_fired s).2 ∧
      ((timer_fired s).1.result = some false ↔
        (timer_fired s).1.tracer = ((timer_fired s).1.player : Int)) ∧
      ((timer_fired s).1.result = none ↔
        (timer_fired s).1.tracer ≠ ((timer_fired s).1.player : Int)) ∧
      (timer_fired s).2.getLast? = some ViewEvent.refresh) ∧
    (timerRun offset (initModel offset text)).result = some false := by
  constructor
  · unfold timer_fired
    by_cases hl : s.tracer + 1 = (s.player : Int)
    · rw [if_pos hl]
      exact ⟨rfl, rfl, by simp, by simp [hl], by simp [hl], rfl⟩
    · rw [if_neg hl]
      exact ⟨rfl, rfl, by simp, by simp [hres, hl], by simp [hres, hl], rfl⟩
  · obtain ⟨j, rfl⟩ : ∃ j, offset = j + 1 := ⟨offset - 1, by omega⟩
    rw [timerRun_succ, timerRun_closed (j + 1) text j (by omega)]
    unfold timer_fired
    rw [if_pos (by push_cast; omega)]

/-- Witness for C6 at offset 4, text "AB", the initial state. -/
theorem C6_witness :
    (((timer_fired (initModel 4 ['A', 'B'])).1.tracer = (initModel 4 ['A', 'B']).tracer + 1 ∧
      (timer_fired (initModel 4 ['A', 'B'])).1.player = (initModel 4 ['A', 'B']).player ∧
      ViewEvent.dropFloor ∈ (timer_fired (initModel 4 ['A', 'B'])).2 ∧
      ((timer_fired (initModel 4 ['A', 'B'])).1.result = some false ↔
        (timer_fired (initModel 4 ['A', 'B'])).1.tracer
          = ((timer_fired (initModel 4 ['A', 'B'])).1.player : Int)) ∧
      ((timer_fired (initModel 4 ['A', 'B'])).1.result = none ↔
        (timer_fired (initModel 4 ['A', 'B'])).1.tracer
          ≠ ((timer_fired (initModel 4 ['A', 'B'])).1.player : Int)) ∧
      (timer_fired (initModel 4 ['A', 'B'])).2.getLast? = some ViewEvent.refresh) ∧
    (timerRun 4 (initModel 4 ['A', 'B'])).result = some false) :=
  C6_timer_fired_step_and_timer_only_loss (initModel 4 ['A', 'B']) 4 ['A', 'B']
    rfl (by decide)

/-- Indexing an append right at the length of the prefix yields the head of
the suffix. -/
lemma getElem?_append_cons (pre : List Char) (c : Char) (rest : List Char) :
    (pre ++ c :: rest)[pre.length]? = some c := by
  induction pre with
  | nil => simp
  | cons a l ih =>
    simp only [List.cons_append, List.length_cons, List.getElem?_cons_succ]
    exact ih

/-- Typing exactly the remaining suffix of the text, in order, wins: the
player index reaches `len(text)`, `result` is set to `Won`, and no
`drop_floor` notification fires along the way. -/
lemma feed_exact_text :
    ∀ (rest pre : List Char) (t : Int), rest ≠ [] →
      ∃ evs,
        feedMoves { tracer := t, player := pre.length, text := pre ++ rest, result := none } rest
          = some ({ tracer := t, player := pre.length + rest.length, text := pre ++ rest,
                    result := some true }, evs) ∧
        ViewEvent.dropFloor ∉ evs := by
  intro rest
  induction rest with
  | nil => exact fun pre t h => absurd rfl h
  | cons c rest' ih =>
    intro pre t _
    have hg := getElem?_append_cons pre c rest'
    cases rest' with
    | nil =>
      have hmv : player_move
          { tracer := t, player := pre.length, text := pre ++ [c], result := none } c
          = some ({ tracer := t, player := pre.length + 1, text := pre ++ [c],
                    result := some true },
              [ViewEvent.printMessage "", ViewEvent.movePlayer,
               ViewEvent.winScreen, ViewEvent.refresh]) := by
        unfold player_move
        rw [hg]
        simp
      refine ⟨[ViewEvent.printMessage "", ViewEvent.movePlayer,
               ViewEvent.winScreen, ViewEvent.refresh], ?_, by decide⟩
      unfold feedMoves
      rw [hmv]
      dsimp only
      rw [feedMoves]
      simp
    | cons c' rest'' =>
      have hnotwin : pre.length + 1 ≠ (pre ++ c :: c' :: rest'').length := by
        simp
      have hmv : player_move
          { tracer := t, player := pre.length, text := pre ++ c :: c' :: rest'',
            result := none } c
          = some ({ tracer := t, player := pre.length + 1,
                    text := pre ++ c :: c' :: rest'', result := none },
              [ViewEvent.printMessage "", ViewEvent.movePlayer, ViewEvent.refresh]) := by
        unfold player_move
        rw [hg]
        simp [hnotwin]
      have hstep := ih (pre ++ [c]) t (by simp)
      have hlen : (pre ++ [c]).length = pre.length + 1 := by simp
      rw [hlen, List.append_assoc] at hstep
      simp only [List.singleton_append] at hstep
      obtain ⟨evs, hfeed, hnof⟩ := hstep
      refine ⟨[ViewEvent.printMessage "", ViewEvent.movePlayer, ViewEvent.refresh] ++ evs,
        ?_, ?_⟩
      · unfold feedMoves
        rw [hmv]
        dsimp only
        rw [hfeed]
        simp only [Option.some.injEq, Prod.mk.injEq, GameModel.mk.injEq,
          List.length_cons, and_true, true_and]
        omega
      · intro hmem
        rcases List.mem_append.mp hmem with h | h
        · simp at h
        · exact hnof h

/-- C7 (amended): for every NON-EMPTY text, feeding exactly the characters
of the text, in order, as successive `player_move` calls starting from the
initial state drives `player` to `len(text)` and sets `result` to `Won`, and
no hazard-advance (`drop_floor`) notification fires during the sequence.
(With an empty text the empty call sequence leaves `result` unset, see the
counterexample.) -/
theorem C7_typing_full_text_wins (offset : Nat) (text : List Char)
    (hne : text ≠ []) :
    ∃ evs,
      feedMoves (initModel offset text) text
        = some ({ tracer := -(offset : Int), player := text.length, text := text,
                  result := some true }, evs) ∧
      ViewEvent.dropFloor ∉ evs := by
  have h := feed_exact_text text [] (-(offset : Int)) hne
  simpa [initModel] using h

/-- Witness for C7 at offset 4, text "AB". -/
theorem C7_witness :
    ∃ evs,
      feedMoves (initModel 4 ['A', 'B']) ['A', 'B']
        = some ({ tracer := -4, player := 2, text := ['A', 'B'],
                  result := some true }, evs) ∧
      ViewEvent.dropFloor ∉ evs :=
  C7_typing_full_text_wins 4 ['A', 'B'] (by decide)

/-- C7 counterexample: with the empty text, feeding exactly its (zero)
characters performs no call and leaves `result` unset, so the claim's
"for every text" fails at `text = []`. -/
theorem C7_counterexample :
    feedMoves (initModel 4 []) [] = some (initModel 4 [], []) ∧
      (initModel 4 []).result ≠ some true := by
  exact ⟨rfl, by decide⟩

/-- C2 counterexample: the state reached by winning on text "A" with offset 1
(first conjunct shows it arises from one correct keystroke) is terminal with
`result = Won`, yet a further `timer_fired` call emits notifications and
changes the state, and a second one even overwrites `result` to `Lost`. -/
theorem C2_counterexample :
    player_move (initModel 1 ['A']) 'A'
      = some (wonA, [ViewEvent.printMessage "", ViewEvent.movePlayer,
          ViewEvent.winScreen, ViewEvent.refresh]) ∧
    (timer_fired wonA).2 ≠ [] ∧
    (timer_fired wonA).1 ≠ wonA ∧
    (timer_fired (timer_fired wonA).1).1.result = some false := by
  decide

/-- C2 (amended): the model itself does not guard post-terminal calls: once
`result` is set, a further `timer_fired` call still increments `tracer`,
still emits `drop_floor` and `refresh` notifications, and overwrites
`result` to `Lost` exactly when the incremented `tracer` equals `player`
(leaving it unchanged otherwise); absence of post-terminal transitions must
be enforced by the caller, as each controller actor stops after
`check_finish_state` returns `True`. -/
theorem C2_post_terminal_timer_not_frame (s : GameModel) (r : Bool)
    (hres : s.result = some r) :
    (timer_fired s).1.tracer = s.tracer + 1 ∧
    ViewEvent.dropFloor ∈ (timer_fired s).2 ∧
    ViewEvent.refresh ∈ (timer_fired s).2 ∧
    (timer_fired s).1.result
      = (if s.tracer + 1 = (s.player : Int) then some false else some r) := by
  obtain ⟨-, -, htr, hrr⟩ := timer_fired_cases s
  rw [hres] at hrr
  refine ⟨htr, ?_, ?_, hrr⟩ <;>
    · unfold timer_fired
      by_cases hl : s.tracer + 1 = (s.player : Int)
      · rw [if_pos hl]; simp
      · rw [if_neg hl]; simp

/-- Witness for C2's amended statement at the won state on text "A". -/
theorem C2_witness :
    (timer_fired wonA).1.tracer = wonA.tracer + 1 ∧
    ViewEvent.dropFloor ∈ (timer_fired wonA).2 ∧
    ViewEvent.refresh ∈ (timer_fired wonA).2 ∧
    (timer_fired wonA).1.result
      = (if wonA.tracer + 1 = (wonA.player : Int) then some false else some true) :=
  C2_post_terminal_timer_not_frame wonA true rfl

/-- C3 counterexample: the first `check_finish_state` call on a finished
model resolves the future (first conjunct), but the claimed idempotence
fails: a later call with the future already resolved raises
`InvalidStateError` (as `asyncio.Future.set_result` does) instead of being a
no-op. -/
theorem C3_counterexample :
    check_finish_state wonAController
      = Except.ok ({ model := wonA, state := some true }, true) ∧
    check_finish_state { model := wonA, state := some true }
      = Except.error "InvalidStateError" :=
  ⟨rfl, rfl⟩

/-- C3 (amended): the first `check_finish_state` call that observes a
non-`Unset` model result resolves the controller's future with that boolean
and returns `True`; but a later call with the future already resolved is not
a no-op: it raises `InvalidStateError` (from `asyncio.Future.set_result` on
a resolved future); exactly-once resolution is ensured only by each actor
exiting its loop after the first `True`. -/
theorem C3_check_finish_state_resolution (c : GameController) (r v : Bool)
    (hres : c.model.result = some r) :
    (c.state = none →
      check_finish_state c = Except.ok ({ c with state := some r }, true)) ∧
    (c.state = some v →
      check_finish_state c = Except.error "InvalidStateError") := by
  unfold check_finish_state get_result
  rw [hres]
  constructor
  · intro h
    rw [h]
    rfl
  · intro h
    rw [h]
    rfl

/-- Witness for C3's amended statement on a freshly finished controller. -/
theorem C3_witness :
    (wonAController.state = none →
      check_finish_state wonAController
        = Except.ok ({ wonAController with state := some true }, true)) ∧
    (wonAController.state = some true →
      check_finish_state wonAController = Except.error "InvalidStateError") :=
  C3_check_finish_state_resolution wonAController true true rfl

/-- C8: what the code actually does on an empty text buffer: `start()` only
pushes the (empty) text to the view and leaves `result` unset — there is no
pre-resolved `Won` — and the very first `player_move` call performs the
out-of-bounds index access `text[0]` (Python `IndexError`, modelled as
`none`) before any win check can run. -/
theorem C8_empty_text_code_divergence :
    (start (initModel 4 [])).1.result = none ∧
    (start (initModel 4 [])).2 = [ViewEvent.gameScreen []] ∧
    player_move (start (initModel 4 [])).1 'q' = none := by
  decide

/-- C9 (amended): concrete scenario on text "TEXT" with offset 4.  Typing
'T','E','X','T' makes `player` 1,2,3,4 after each call with `result` `Won`
after the 4th; typing 'T' then three wrong keys makes `tracer` -3,-2,-1 with
`result` still unset; a 4th wrong key makes `tracer` 0 while `player` is 1
(the correct 'T' advanced it), so `result` is STILL unset, and only a 5th
wrong key makes `tracer == 1 == player`, setting `result` to `Lost`. -/
theorem C9_concrete_scenario :
    ((feedMoves (initModel 4 ['T', 'E', 'X', 'T']) ['T']).map
        (fun p => (p.1.player, p.1.result)) = some (1, none)) ∧
    ((feedMoves (initModel 4 ['T', 'E', 'X', 'T']) ['T', 'E']).map
        (fun p => (p.1.player, p.1.result)) = some (2, none)) ∧
    ((feedMoves (initModel 4 ['T', 'E', 'X', 'T']) ['T', 'E', 'X']).map
        (fun p => (p.1.player, p.1.result)) = some (3, none)) ∧
    ((feedMoves (initModel 4 ['T', 'E', 'X', 'T']) ['T', 'E', 'X', 'T']).map
        (fun p => (p.1.player, p.1.result)) = some (4, some true)) ∧
    ((feedMoves (initModel 4 ['T', 'E', 'X', 'T']) ['T', '?']).map
        (fun p => (p.1.tracer, p.1.result)) = some (-3, none)) ∧
    ((feedMoves (initModel 4 ['T', 'E', 'X', 'T']) ['T', '?', '?']).map
        (fun p => (p.1.tracer, p.1.result)) = some (-2, none)) ∧
    ((feedMoves (initModel 4 ['T', 'E', 'X', 'T']) ['T', '?', '?', '?']).map
        (fun p => (p.1.tracer, p.1.result)) = some (-1, none)) ∧
    ((feedMoves (initModel 4 ['T', 'E', 'X', 'T']) ['T', '?', '?', '?', '?']).map
        (fun p => (p.1.tracer, p.1.player, p.1.result)) = some (0, 1, none)) ∧
    ((feedMoves (initModel 4 ['T', 'E', 'X', 'T']) ['T', '?', '?', '?', '?', '?']).map
        (fun p => (p.1.tracer, p.1.player, p.1.result)) = some (1, 1, some false)) := by
  decide

/-- C9 counterexample: after 'T' and then four wrong keys, `tracer` is 0 but
`player` is 1 and `result` is still unset — refuting the claim that the 4th
wrong key makes `tracer == 0 == player` and sets `result = Lost`. -/
theorem C9_counterexample :
    (feedMoves (initModel 4 ['T', 'E', 'X', 'T']) ['T', '?', '?', '?', '?']).map
      (fun p => (p.1.tracer, p.1.player, p.1.result)) = some (0, 1, none) ∧
    (1 : Nat) ≠ 0 := by
  decide
